import Mathlib

/-! nmante/restful: the forwarding client, the classifier and the response writer.

A shallow embedding of `restclient/client.go` and `posts_handler.go`, with the parts of the Go
standard library they run on.

* Go maps (`http.Header`, `map[string]interface{}`) are association lists read through a
  lookup; an assignment `m[k] = v` replaces the entry of an existing key.
* A Go map is a reference: `dest := r.DefaultHeaders` makes `dest` another name of the
  client's own map, so a function that writes through such a name returns the client together
  with its result (explicit state passing).
* Go `int` status codes are `Int`; only comparisons with constants are made on them.
* Byte slices that carry text (request and response bodies) are `String`s, so bodies are
  well-formed Unicode.
* encoding/json is modelled on text: the decoder into `interface{}` (grammar, escapes,
  `strconv.ParseFloat` with exact rounding to float64, last duplicate key wins) and the
  encoder (sorted map keys, shortest float digits, HTML escaping, the newline of
  `Encoder.Encode`). Control characters other than `\n`, `\r`, `\t` are written `\u00XX`.
* net/http is modelled by the state of the response writer (`ResponseWriter`) and by the
  results the transport hands back (`Net`).
* A panic is a result of its own (`Outcome.panic`).
-/

namespace Restful

/-! ## Headers -/

/-- Go's `http.Header` (`map[string][]string`): one entry per key. The nil map is `[]`. -/
abbrev Header := List (String × List String)

/-- The two-result map read `val, ok := m[k]`: `none` when `ok` is false. -/
def Header.lookup : Header → String → Option (List String)
  | [], _ => none
  | (k, v) :: rest, key => if k = key then some v else Header.lookup rest key

/-- The map assignment `m[k] = v`: replaces the value of an existing key, adds a new key. -/
def Header.set : Header → String → List String → Header
  | [], key, val => [(key, val)]
  | (k, v) :: rest, key, val =>
    if k = key then (k, val) :: rest else (k, v) :: Header.set rest key val

/-- The keys a `for h, _ := range m` loop visits. -/
def Header.keys (h : Header) : List String := h.map Prod.fst

/-! ## restclient: data -/

/-- `FetchResponse` of client.go. -/
structure FetchResponse where
  StatusCode : Int
  Status : String
  Body : String
  deriving DecidableEq, Repr

/-- `ErrorResponse` of client.go (`Type_` is the Go field `Type`, JSON name `type`;
`Errors` has JSON name `errors`). -/
structure ErrorResponse where
  Type_ : String
  Errors : List String
  deriving DecidableEq, Repr

/-- `RestClient` of client.go. The `Client *http.Client` field is the transport; it is
passed to `fetch` as a separate argument, so the client state is the header map. -/
structure RestClient where
  DefaultHeaders : Header
  deriving DecidableEq, Repr

/-- `New` of client.go. -/
def New : RestClient :=
  { DefaultHeaders := [("Content-Type", ["application/json"])] }

/-- The loop of `mergeHeaders`: `for h, _ := range dest { if val, ok := src[h]; ok { dest[h] = val } }`,
over the keys in the order `hs`. -/
def mergeLoop (src : Header) : List String → Header → Header
  | [], dest => dest
  | h :: hs, dest =>
    match Header.lookup src h with
    | some val => mergeLoop src hs (Header.set dest h val)
    | none => mergeLoop src hs dest

/-- `(*RestClient).mergeHeaders` of client.go. `dest := r.DefaultHeaders` copies the map
reference, not the map, so the writes `dest[h] = val` are writes to the client's map: the
function returns `dest` and the client whose `DefaultHeaders` is that same map. -/
def mergeHeaders (r : RestClient) (src : Header) : Header × RestClient :=
  let dest := mergeLoop src (Header.keys r.DefaultHeaders) r.DefaultHeaders
  (dest, { r with DefaultHeaders := dest })

/-- `(*RestClient).CheckForError` of client.go; `none` is the nil pointer. -/
def CheckForError (response : FetchResponse) : Option ErrorResponse :=
  if response.StatusCode < 400 then
    none
  else if response.StatusCode = 404 then
    some { Type_ := "not_found", Errors := ["Resource not found"] }
  else if response.StatusCode < 500 then
    some { Type_ := "bad_external_request", Errors := ["Bad external request"] }
  else if response.StatusCode < 600 then
    some { Type_ := "server_error", Errors := ["Server error occured"] }
  else
    none


/-! ## encoding/json: the generic value tree -/

/-- A float64, `(-1)^neg * mant * 2^exp`, as `strconv.ParseFloat` returns it: `mant < 2^53`,
`-1074 ≤ exp ≤ 971`, and `2^52 ≤ mant` unless `exp = -1074` or the value is zero. -/
structure Float64 where
  neg : Bool
  mant : Nat
  exp : Int
  deriving DecidableEq, Repr

/-- What `json.Unmarshal` stores into an `interface{}`: nil, bool, float64, string,
`[]interface{}` or `map[string]interface{}`. A map is kept with its keys in increasing order,
the order in which `json.Marshal` writes them. -/
inductive JSON where
  | null
  | bool (b : Bool)
  | num (f : Float64)
  | str (s : String)
  | arr (xs : List JSON)
  | obj (kvs : List (String × JSON))
  deriving Repr

/-- The map assignment `m[key] = value` on a `map[string]interface{}`. Keys are kept in the
order of their code points, which is the byte order Go sorts UTF-8 strings by. -/
def mapInsert (k : String) (v : JSON) : List (String × JSON) → List (String × JSON)
  | [] => [(k, v)]
  | (k0, v0) :: rest =>
    if k = k0 then (k, v) :: rest
    else if k.toList < k0.toList then (k, v) :: (k0, v0) :: rest
    else (k0, v0) :: mapInsert k v rest

/-! ### strconv: decimal text to float64 and back -/

/-- The decimal digits of `n`, most significant first (`[0]` for zero). -/
def decDigits (n : Nat) : List Nat := (Nat.toDigits 10 n).map (fun c => c.toNat - 48)

/-- The integer part of the binary logarithm of `n` (0 for `n < 2`); the first argument bounds
the number of halvings. -/
def log2Floor : Nat → Nat → Nat
  | 0, _ => 0
  | fuel + 1, n => if n < 2 then 0 else log2Floor fuel (n / 2) + 1

/-- `strconv.ParseFloat(s, 64)` for a literal of value `m10 * 10^e10` with sign `neg`:
the nearest float64, ties to even; `none` is the range error. -/
def parseFloat64 (neg : Bool) (m10 : Nat) (e10 : Int) : Option Float64 :=
  if m10 = 0 then some ⟨neg, 0, 0⟩
  else
    let nd : Int := (decDigits m10).length
    if e10 + nd > 310 then none
    else if e10 + nd < -330 then some ⟨neg, 0, 0⟩
    else
      let N : Nat := if 0 ≤ e10 then m10 * 10 ^ e10.toNat else m10
      let D : Nat := if 0 ≤ e10 then 1 else 10 ^ (-e10).toNat
      let b0 : Int := (log2Floor N N : Int) - (log2Floor D D : Int)
      let ge : Bool :=
        if 0 ≤ b0 then decide (D * 2 ^ b0.toNat ≤ N) else decide (D ≤ N * 2 ^ (-b0).toNat)
      let b : Int := if ge then b0 else b0 - 1
      let e2 : Int := max (b - 52) (-1074)
      let num : Nat := if 0 ≤ e2 then N else N * 2 ^ (-e2).toNat
      let den : Nat := if 0 ≤ e2 then D * 2 ^ e2.toNat else D
      let q := num / den
      let r := num % den
      let m := if den < 2 * r ∨ (2 * r = den ∧ q % 2 = 1) then q + 1 else q
      let m1 := if m = 2 ^ 53 then 2 ^ 52 else m
      let e21 := if m = 2 ^ 53 then e2 + 1 else e2
      if 971 < e21 then none else some ⟨neg, m1, e21⟩

/-- The digit walk of strconv's `roundShortest`, on integers: `X`, `L`, `U` are the value and
the lower and upper ends of its rounding interval, all scaled by one power of ten; position `i`
counts from the first digit of `U`, which has `K` digits. -/
def shortestLoop (X L U : Nat) (inclusive : Bool) (K : Nat) : Nat → Nat → Nat
  | 0, _ => X
  | fuel + 1, i =>
    let unit := 10 ^ (K - 1 - i)
    let down := X / unit * unit
    let up := down + unit
    let okdown : Bool := decide (L < down) || (inclusive && decide (L = down))
    let okup : Bool := decide (up < U) || (inclusive && decide (up = U))
    if okdown && okup then
      let rem := X - down
      if unit < 2 * rem ∨ (2 * rem = unit ∧ (down / unit) % 2 = 1) then up else down
    else if okdown then down
    else if okup then up
    else shortestLoop X L U inclusive K fuel (i + 1)

/-- Drops the trailing zeros of a digit list. -/
def trimZeros (ds : List Nat) : List Nat := (ds.reverse.dropWhile (fun d => d == 0)).reverse

/-- The shortest decimal that reads back as the float `mant * 2^e2` (`0 < mant`): its digits
`d₁ d₂ ...` and its decimal point `dp`, for the value `0.d₁d₂... * 10^dp`. -/
def roundShortest (mant : Nat) (e2 : Int) : List Nat × Int :=
  let p : Nat := if e2 < 2 then (2 - e2).toNat else 0
  let s : Nat := if e2 < 2 then 0 else (e2 - 2).toNat
  let F := 2 ^ s * 5 ^ p
  let X := 4 * mant * F
  let U := (4 * mant + 2) * F
  let L := if 2 ^ 52 < mant ∨ e2 = -1074 then (4 * mant - 2) * F else (4 * mant - 1) * F
  let K := (decDigits U).length
  let R := shortestLoop X L U (mant % 2 == 0) K (K + 1) 0
  (trimZeros (decDigits R), ((decDigits R).length : Int) - (p : Int))

/-- The characters of a list of digits. -/
def digitChars (ds : List Nat) : List Char := ds.map (fun d => Char.ofNat (48 + d))

/-- The `%f` form of strconv's `fmtF` at the shortest precision. -/
def fmtF (ds : List Nat) (dp : Int) : List Char :=
  let nd := ds.length
  let intPart : List Char :=
    if 0 < dp then
      digitChars (ds.take dp.toNat) ++ List.replicate (dp.toNat - nd) '0'
    else ['0']
  let prec : Nat := ((nd : Int) - dp).toNat
  let frac : List Char :=
    if 0 < prec then
      '.' :: (List.range prec).map (fun i =>
        let j : Int := dp + (i : Int)
        if 0 ≤ j ∧ j < (nd : Int) then Char.ofNat (48 + ds.getD j.toNat 0) else '0')
    else []
  intPart ++ frac

/-- The `%e` form of strconv's `fmtE` at the shortest precision, after the clean-up of
encoding/json that turns `e-09` into `e-9`. -/
def fmtE (ds : List Nat) (dp : Int) : List Char :=
  let first : List Char := digitChars (ds.take 1)
  let more : List Char := if 1 < ds.length then '.' :: digitChars (ds.drop 1) else []
  let exp : Int := dp - 1
  let expDigits : List Char := Nat.toDigits 10 exp.natAbs
  let expText : List Char :=
    if exp < 0 then
      '-' :: expDigits
    else
      '+' :: (if exp.natAbs < 10 then '0' :: expDigits else expDigits)
  first ++ more ++ 'e' :: expText

/-- The float encoder of encoding/json (`floatEncoder` with 64 bits): `%e` below `1e-6` and
from `1e21` on, `%f` otherwise, always with the shortest digits. The float64 constant `1e-6`
is `4722366482869645 * 2^-72`. -/
def encodeFloat (f : Float64) : List Char :=
  let sign : List Char := if f.neg then ['-'] else []
  if f.mant = 0 then sign ++ ['0']
  else
    let small : Bool :=
      if 0 ≤ f.exp + 72 then decide (f.mant * 2 ^ (f.exp + 72).toNat < 4722366482869645)
      else decide (f.mant < 4722366482869645 * 2 ^ (-(f.exp + 72)).toNat)
    let large : Bool :=
      if 0 ≤ f.exp then decide (10 ^ 21 ≤ f.mant * 2 ^ f.exp.toNat) else false
    let (ds, dp) := roundShortest f.mant f.exp
    if small || large then sign ++ fmtE ds dp else sign ++ fmtF ds dp

/-! ### encoding/json: the encoder -/

/-- A hexadecimal digit, lower case. -/
def hexDigit (n : Nat) : Char := if n < 10 then Char.ofNat (48 + n) else Char.ofNat (87 + n)

/-- How the encoder writes one character of a string, HTML escaping on (the default of
`json.NewEncoder`): `\"`, `\\`, `\n`, `\r`, `\t`; `\u00XX` for the other control characters
and for `<`, `>`, `&`; `\u2028` and `\u2029` for the two line separators; every other
character as itself. -/
def encodeChar (c : Char) : List Char :=
  if c = '"' then ['\\', '"']
  else if c = '\\' then ['\\', '\\']
  else if c = '\n' then ['\\', 'n']
  else if c = '\r' then ['\\', 'r']
  else if c = '\t' then ['\\', 't']
  else if c.toNat < 32 ∨ c = '<' ∨ c = '>' ∨ c = '&' then
    ['\\', 'u', '0', '0', hexDigit (c.toNat / 16), hexDigit (c.toNat % 16)]
  else if c.toNat = 0x2028 then ['\\', 'u', '2', '0', '2', '8']
  else if c.toNat = 0x2029 then ['\\', 'u', '2', '0', '2', '9']
  else [c]

/-- A JSON string literal. -/
def encodeString (s : String) : List Char :=
  '"' :: (s.toList.flatMap encodeChar ++ ['"'])

mutual
/-- The compact text `json.Marshal` writes for a generic value. -/
def encodeValue : JSON → List Char
  | .null => ['n', 'u', 'l', 'l']
  | .bool b => if b then ['t', 'r', 'u', 'e'] else ['f', 'a', 'l', 's', 'e']
  | .num f => encodeFloat f
  | .str s => encodeString s
  | .arr xs => '[' :: (encodeElements xs ++ [']'])
  | .obj kvs => '{' :: (encodeMembers kvs ++ ['}'])
/-- The elements of an array, separated by commas. -/
def encodeElements : List JSON → List Char
  | [] => []
  | [x] => encodeValue x
  | x :: y :: xs => encodeValue x ++ ',' :: encodeElements (y :: xs)
/-- The members of an object, separated by commas. -/
def encodeMembers : List (String × JSON) → List Char
  | [] => []
  | [(k, v)] => encodeString k ++ ':' :: encodeValue v
  | (k, v) :: p :: kvs => encodeString k ++ ':' :: encodeValue v ++ ',' :: encodeMembers (p :: kvs)
end

/-! ### encoding/json: the decoder into `interface{}` -/

/-- JSON white space. -/
def isWS (c : Char) : Bool := c = ' ' || c = '\t' || c = '\r' || c = '\n'

/-- Skips white space. -/
def skipWS : List Char → List Char
  | [] => []
  | c :: cs => if isWS c then skipWS cs else c :: cs

/-- A decimal digit. -/
def isDigit (c : Char) : Bool := decide (48 ≤ c.toNat) && decide (c.toNat ≤ 57)

/-- The leading digits of the input and what follows them. -/
def spanDigits : List Char → List Char × List Char
  | [] => ([], [])
  | c :: cs =>
    if isDigit c then ((c :: (spanDigits cs).1), (spanDigits cs).2) else ([], c :: cs)

/-- The number written by a string of digits. -/
def natOfDigits (ds : List Char) : Nat := ds.foldl (fun n c => 10 * n + (c.toNat - 48)) 0

/-- The value of a hexadecimal digit. -/
def hexVal (c : Char) : Option Nat :=
  if isDigit c then some (c.toNat - 48)
  else if 97 ≤ c.toNat ∧ c.toNat ≤ 102 then some (c.toNat - 87)
  else if 65 ≤ c.toNat ∧ c.toNat ≤ 70 then some (c.toNat - 55)
  else none

/-- The code unit of four hexadecimal digits (`getu4` without the leading `\u`). -/
def hex4 (a b c d : Char) : Option Nat :=
  match hexVal a, hexVal b, hexVal c, hexVal d with
  | some x, some y, some z, some w => some (((x * 16 + y) * 16 + z) * 16 + w)
  | _, _, _, _ => none

/-- The low half of a surrogate pair when the input starts with a `\uXXXX` escape in
`DC00..DFFF`, with the input after it. -/
def lowSurrogate : List Char → Option (Nat × List Char)
  | bs :: u :: a :: b :: c :: d :: rest =>
    if bs = '\\' ∧ u = 'u' then
      match hex4 a b c d with
      | some lo => if 0xDC00 ≤ lo ∧ lo < 0xE000 then some (lo, rest) else none
      | none => none
    else none
  | _ => none

/-- The rest of a string literal after its opening quote: the decoded string and the input
after the closing quote. A raw control character and an unknown escape are syntax errors; a
surrogate escape that is not the first half of a pair decodes to U+FFFD. -/
def parseStringBody : Nat → List Char → List Char → Option (String × List Char)
  | 0, _, _ => none
  | _ + 1, [], _ => none
  | fuel + 1, c :: cs, acc =>
    if c = '"' then some (String.mk acc.reverse, cs)
    else if c = '\\' then
      match cs with
      | [] => none
      | e :: rest =>
        if e = '"' then parseStringBody fuel rest ('"' :: acc)
        else if e = '\\' then parseStringBody fuel rest ('\\' :: acc)
        else if e = '/' then parseStringBody fuel rest ('/' :: acc)
        else if e = 'b' then parseStringBody fuel rest (Char.ofNat 8 :: acc)
        else if e = 'f' then parseStringBody fuel rest (Char.ofNat 12 :: acc)
        else if e = 'n' then parseStringBody fuel rest ('\n' :: acc)
        else if e = 'r' then parseStringBody fuel rest ('\r' :: acc)
        else if e = 't' then parseStringBody fuel rest ('\t' :: acc)
        else if e = 'u' then
          match rest with
          | h1 :: h2 :: h3 :: h4 :: rest2 =>
            match hex4 h1 h2 h3 h4 with
            | none => none
            | some u =>
              if 0xD800 ≤ u ∧ u < 0xE000 then
                match (if u < 0xDC00 then lowSurrogate rest2 else none) with
                | some (lo, rest3) =>
                  parseStringBody fuel rest3
                    (Char.ofNat ((u - 0xD800) * 1024 + (lo - 0xDC00) + 0x10000) :: acc)
                | none => parseStringBody fuel rest2 (Char.ofNat 0xFFFD :: acc)
              else parseStringBody fuel rest2 (Char.ofNat u :: acc)
          | _ => none
        else none
    else if c.toNat < 32 then none
    else parseStringBody fuel cs (c :: acc)

/-- Whether the input starts with the character `c`. -/
def startsWith (c : Char) : List Char → Bool
  | [] => false
  | d :: _ => decide (d = c)

/-- A number literal at the head of the input (`-? (0 | [1-9][0-9]*) (. [0-9]+)? ([eE] [+-]? [0-9]+)?`)
converted as `convertNumber` does, with the input after it. `none` is a syntax error or the
range error of `strconv.ParseFloat`. -/
def parseNumber (cs : List Char) : Option (Float64 × List Char) :=
  let neg : Bool := startsWith '-' cs
  let cs1 : List Char := if neg then cs.drop 1 else cs
  match cs1 with
  | [] => none
  | c :: r =>
    if ¬ isDigit c then none
    else
      let intDs : List Char := if c = '0' then [c] else c :: (spanDigits r).1
      let r1 : List Char := if c = '0' then r else (spanDigits r).2
      let hasFrac : Bool := startsWith '.' r1
      let fracDs : List Char := if hasFrac then (spanDigits (r1.drop 1)).1 else []
      let r2 : List Char := if hasFrac then (spanDigits (r1.drop 1)).2 else r1
      if hasFrac ∧ fracDs = [] then none
      else
        let hasExp : Bool := startsWith 'e' r2 || startsWith 'E' r2
        let r3 : List Char := if hasExp then r2.drop 1 else r2
        let expNeg : Bool := hasExp && startsWith '-' r3
        let expSigned : Bool := hasExp && (startsWith '-' r3 || startsWith '+' r3)
        let r4 : List Char := if expSigned then r3.drop 1 else r3
        let expDs : List Char := if hasExp then (spanDigits r4).1 else []
        let r5 : List Char := if hasExp then (spanDigits r4).2 else r2
        if hasExp ∧ expDs = [] then none
        else
          let e : Int := if expNeg then -(natOfDigits expDs : Int) else (natOfDigits expDs : Int)
          match parseFloat64 neg (natOfDigits (intDs ++ fracDs)) (e - (fracDs.length : Int)) with
          | some f => some (f, r5)
          | none => none

/-- The input after the literal `lit` when the input starts with it. -/
def dropLiteral : List Char → List Char → Option (List Char)
  | [], cs => some cs
  | _ :: _, [] => none
  | l :: ls, c :: cs => if l = c then dropLiteral ls cs else none

mutual
/-- One JSON value at the head of the input (no leading white space), decoded into the
generic tree, with the input after it. -/
def parseValue : Nat → List Char → Option (JSON × List Char)
  | 0, _ => none
  | _ + 1, [] => none
  | fuel + 1, c :: r =>
    if c = '{' then
      (if startsWith '}' (skipWS r) then some (.obj [], (skipWS r).drop 1)
       else parseMembers fuel (skipWS r) [])
    else if c = '[' then
      (if startsWith ']' (skipWS r) then some (.arr [], (skipWS r).drop 1)
       else parseElements fuel (skipWS r) [])
    else if c = '"' then
      (match parseStringBody (r.length + 1) r [] with
       | some (s, rest) => some (.str s, rest)
       | none => none)
    else
      match dropLiteral ['t', 'r', 'u', 'e'] (c :: r) with
      | some rest => some (.bool true, rest)
      | none =>
        match dropLiteral ['f', 'a', 'l', 's', 'e'] (c :: r) with
        | some rest => some (.bool false, rest)
        | none =>
          match dropLiteral ['n', 'u', 'l', 'l'] (c :: r) with
          | some rest => some (.null, rest)
          | none =>
            match parseNumber (c :: r) with
            | some (f, rest) => some (.num f, rest)
            | none => none
/-- The elements of an array from the next element on; `acc` holds the earlier ones, last first. -/
def parseElements : Nat → List Char → List JSON → Option (JSON × List Char)
  | 0, _, _ => none
  | fuel + 1, cs, acc =>
    match parseValue fuel cs with
    | none => none
    | some (v, rest) =>
      if startsWith ',' (skipWS rest) then
        parseElements fuel (skipWS ((skipWS rest).drop 1)) (v :: acc)
      else if startsWith ']' (skipWS rest) then
        some (.arr (v :: acc).reverse, (skipWS rest).drop 1)
      else none
/-- The members of an object from the next key on; `acc` is the map built so far. -/
def parseMembers : Nat → List Char → List (String × JSON) → Option (JSON × List Char)
  | 0, _, _ => none
  | _ + 1, [], _ => none
  | fuel + 1, c :: r, acc =>
    if c = '"' then
      match parseStringBody (r.length + 1) r [] with
      | none => none
      | some (k, rest) =>
        if startsWith ':' (skipWS rest) then
          match parseValue fuel (skipWS ((skipWS rest).drop 1)) with
          | none => none
          | some (v, rest1) =>
            if startsWith ',' (skipWS rest1) then
              parseMembers fuel (skipWS ((skipWS rest1).drop 1)) (mapInsert k v acc)
            else if startsWith '}' (skipWS rest1) then
              some (.obj (mapInsert k v acc), (skipWS rest1).drop 1)
            else none
        else none
    else none
end

/-- `json.Unmarshal(data, &v)` for a `v` of type `interface{}` that holds no pointer: the
input must be one JSON value between optional white space; it is decoded into the generic
tree. `none` is a non-nil error. The fuel covers every input: a call chain is never longer
than twice the number of characters. A limit on the nesting depth is not modelled. -/
def unmarshalGeneric (data : String) : Option JSON :=
  match parseValue (2 * data.length + 2) (skipWS data.toList) with
  | some (v, rest) => if skipWS rest = [] then some v else none
  | none => none

/-! ## net/http: the response writer -/

/-- The state of an `http.ResponseWriter` of the net/http server: the live header map
`w.Header()`, whether the status line has been written, the status code written, the header
map as it stood when the status line was written (what the caller receives; later changes of
`header` are not sent), and the body bytes written so far. Status codes are recorded as given;
the writer's own check of the code's range is not part of the model, nor is the sniffing of a
content type, which happens only when a body is written with no `Content-Type` set. -/
structure ResponseWriter where
  header : Header
  wroteHeader : Bool
  status : Int
  sentHeader : Header
  body : String
  deriving DecidableEq, Repr

/-- The writer a handler receives: nothing set, nothing written. -/
def ResponseWriter.fresh : ResponseWriter :=
  { header := [], wroteHeader := false, status := 0, sentHeader := [], body := "" }

/-- `w.Header().Set(key, value)` for a key in canonical form. -/
def ResponseWriter.SetHeader (w : ResponseWriter) (key value : String) : ResponseWriter :=
  { w with header := Header.set w.header key [value] }

/-- `w.WriteHeader(code)`: the first call fixes the status and the headers sent; a later call
changes nothing. -/
def ResponseWriter.WriteHeader (w : ResponseWriter) (code : Int) : ResponseWriter :=
  if w.wroteHeader then w
  else { w with wroteHeader := true, status := code, sentHeader := w.header }

/-- `bodyAllowedForStatus` of net/http. -/
def bodyAllowedForStatus (status : Int) : Bool :=
  if 100 ≤ status ∧ status ≤ 199 then false
  else if status = 204 then false
  else if status = 304 then false
  else true

/-- `w.Write(data)`: writes the status line with 200 when none was written; the second
component is true when the call returns an error (`http.ErrBodyNotAllowed`). -/
def ResponseWriter.Write (w : ResponseWriter) (data : String) : ResponseWriter × Bool :=
  let w1 := if w.wroteHeader then w else w.WriteHeader 200
  if bodyAllowedForStatus w1.status then ({ w1 with body := w1.body ++ data }, false)
  else (w1, true)

/-- `http.Error(w, error, code)`. -/
def httpError (w : ResponseWriter) (error : String) (code : Int) : ResponseWriter :=
  let w1 := w.SetHeader "Content-Type" "text/plain; charset=utf-8"
  let w2 := w1.SetHeader "X-Content-Type-Options" "nosniff"
  let w3 := w2.WriteHeader code
  (w3.Write (error ++ "\n")).1

/-! ## restclient: writing responses -/

/-- `newErrorResponse` of client.go. -/
def newErrorResponse (errorType : String) (errorMessage : String) : ErrorResponse :=
  { Type_ := errorType, Errors := [errorMessage] }

/-- The strings of a `[]string` as JSON array elements. -/
def encodeStrings : List String → List Char
  | [] => []
  | [s] => encodeString s
  | s :: t :: rest => encodeString s ++ ',' :: encodeStrings (t :: rest)

/-- `json.Marshal` of an `ErrorResponse`: the fields in declaration order under their JSON
names `type` and `errors` (the `Errors` slice of this program is never nil). -/
def marshalErrorResponse (e : ErrorResponse) : String :=
  String.mk (['{'] ++ encodeString "type" ++ [':'] ++ encodeString e.Type_ ++ [','] ++
    encodeString "errors" ++ [':', '['] ++ encodeStrings e.Errors ++ [']', '}'])

/-- `(*RestClient).WriteErrorResponse` of client.go. `json.NewEncoder(writer).Encode(v)`
writes the text of `v` and a newline in one `Write`; marshalling an `ErrorResponse` cannot
fail, so `Encode` fails only when the `Write` does. -/
def WriteErrorResponse (writer : ResponseWriter) (errorType : String) (errorMessage : String) :
    ResponseWriter :=
  let w1 := writer.SetHeader "Content-Type" "application/json"
  let w2 := w1.WriteHeader 500
  let errorResponse := newErrorResponse errorType errorMessage
  let (w3, err) := w2.Write (marshalErrorResponse errorResponse ++ "\n")
  if err then httpError w3 "RestClient: Failed to encode error response" 500
  else w3

/-- `Post` of posts_handler.go. -/
structure Post where
  UserId : Int
  Id : Int
  Title : String
  Body : String
  deriving DecidableEq, Repr

/-- The dynamic values that reach `WriteJSONResponse` in its `responseObject interface{}`
parameter: a `Post` struct (`var post Post`), a `[]Post` slice (`var posts []Post`, `none` is
the nil slice), or, after `json.Unmarshal` has stored into the variable, a generic tree. None
of them is a pointer. -/
inductive Any where
  | post (p : Post)
  | posts (ps : Option (List Post))
  | generic (v : JSON)

/-- A Go `int` in decimal. -/
def encodeInt (n : Int) : List Char :=
  if n < 0 then '-' :: Nat.toDigits 10 n.natAbs else Nat.toDigits 10 n.natAbs

/-- `json.Marshal` of a `Post`: the four fields in declaration order under their JSON names. -/
def marshalPost (p : Post) : List Char :=
  ['{'] ++ encodeString "userId" ++ [':'] ++ encodeInt p.UserId ++ [','] ++
    encodeString "id" ++ [':'] ++ encodeInt p.Id ++ [','] ++
    encodeString "title" ++ [':'] ++ encodeString p.Title ++ [','] ++
    encodeString "body" ++ [':'] ++ encodeString p.Body ++ ['}']

/-- The posts of a `[]Post` as JSON array elements. -/
def marshalPosts : List Post → List Char
  | [] => []
  | [p] => marshalPost p
  | p :: q :: rest => marshalPost p ++ ',' :: marshalPosts (q :: rest)

/-- `json.Marshal` of the value held by an `interface{}`. -/
def marshalAny : Any → String
  | .post p => String.mk (marshalPost p)
  | .posts none => "null"
  | .posts (some ps) => String.mk ('[' :: (marshalPosts ps ++ [']']))
  | .generic v => String.mk (encodeValue v)

/-- `json.Unmarshal(data, &responseObject)` where `responseObject` is the `interface{}`
parameter of `WriteJSONResponse`. The decoder follows pointers only (`indirect` in
encoding/json's decode.go): handed a pointer to an interface that holds a non-pointer value,
it stores into the interface itself, and for an empty interface it stores the generic tree
(`map[string]interface{}`, `[]interface{}`, `float64`, ...), whatever the interface held. The
value the handler put in `responseObject` therefore does not guide the decoding. `none` is a
non-nil error. -/
def unmarshalIntoInterface (data : String) (_responseObject : Any) : Option Any :=
  match unmarshalGeneric data with
  | some v => some (.generic v)
  | none => none

/-- The result of a Go function that may panic. A panic in a handler unwinds to the net/http
server, which logs it and drops the connection: no response is written. -/
inductive Outcome (α : Type) where
  | ok (a : α)
  | panic (msg : String)
  deriving DecidableEq, Repr

/-- `(*RestClient).WriteJSONResponse` of client.go. `errorResponse.Errors[0]` panics on an
empty slice; marshalling a decoded generic tree cannot fail, so the last `Encode` fails only
when the `Write` does. -/
def WriteJSONResponse (writer : ResponseWriter) (response : FetchResponse)
    (responseObject : Any) : Outcome ResponseWriter :=
  match CheckForError response with
  | some errorResponse =>
    (match errorResponse.Errors with
     | first :: _ => .ok (WriteErrorResponse writer errorResponse.Type_ first)
     | [] => .panic "runtime error: index out of range")
  | none =>
    match unmarshalIntoInterface response.Body responseObject with
    | none => .ok (WriteErrorResponse writer "server_error" "Unmarshaling JSON failed")
    | some decoded =>
      let w1 := writer.SetHeader "Content-Type" "application/json"
      let w2 := w1.WriteHeader response.StatusCode
      let (w3, err) := w2.Write (marshalAny decoded ++ "\n")
      if err then .ok (httpError w3 "can't read body" 400)
      else .ok w3

/-! ## restclient: fetching -/

/-- The inbound `*http.Request` as the handlers use it: what `ioutil.ReadAll(r.Body)` returns
(the bytes, or an error), `r.Header` and `r.URL.RawQuery`. -/
structure Request where
  Body : Except String String
  Header : Header
  RawQuery : String

/-- The outbound request built by `http.NewRequest` and completed by `fetch`. -/
structure OutRequest where
  Method : String
  URL : String
  Body : String
  Header : Header
  deriving DecidableEq, Repr

/-- The upstream `*http.Response`: `Status`, `StatusCode`, and what
`ioutil.ReadAll(response.Body)` returns. -/
structure Response where
  Status : String
  StatusCode : Int
  Body : Except String String

/-- The network as `fetch` sees it. `NewRequestFails method url` tells whether
`http.NewRequest(method, url, body)` returns an error, and with it a nil request (a method
that is not a token, a URL that does not parse). `Do` is `r.Client.Do`: the response
(`none` is nil) and the error (`none` is nil); a transport failure is `(none, some err)`. -/
structure Net where
  NewRequestFails : String → String → Bool
  Do : OutRequest → Option Response × Option String

/-- The errors `fetch` returns; the handlers only test them against nil. -/
inductive FetchError where
  | copyBody (cause : String)
  | doRequest (cause : String)
  | readBody (cause : String)
  deriving DecidableEq, Repr

/-- `CopyRequestBody` of client.go. -/
def CopyRequestBody (r : Request) : Except String String :=
  match r.Body with
  | .error err => .error err
  | .ok bodyBytes => .ok bodyBytes

/-- The zero value `FetchResponse{}`. -/
def FetchResponse.zero : FetchResponse := { StatusCode := 0, Status := "", Body := "" }

/-- `(*RestClient).fetch` of client.go, with the client state after the call.

* The error of `http.NewRequest` is dropped; on failure `newRequest` is nil and the
  assignment `newRequest.Header = r.mergeHeaders(headers)` panics once its right-hand side
  has been evaluated.
* `defer response.Body.Close()` stands before the test of `err`: the deferred call's
  receiver `response.Body` is evaluated when the `defer` statement runs, so a nil `response`
  panics there. -/
def fetch (net : Net) (r : RestClient) (method : String) (url : String) (request : Request)
    (headers : Header) : Outcome (FetchResponse × Option FetchError) × RestClient :=
  match CopyRequestBody request with
  | .error err => (.ok (FetchResponse.zero, some (.copyBody err)), r)
  | .ok body =>
    let merged := mergeHeaders r headers
    if net.NewRequestFails method url then
      (.panic "invalid memory address or nil pointer dereference", merged.2)
    else
      let newRequest : OutRequest :=
        { Method := method, URL := url, Body := body, Header := merged.1 }
      match net.Do newRequest with
      | (none, _) => (.panic "invalid memory address or nil pointer dereference", merged.2)
      | (some _, some err) => (.ok (FetchResponse.zero, some (.doRequest err)), merged.2)
      | (some response, none) =>
        match response.Body with
        | .error err => (.ok (FetchResponse.zero, some (.readBody err)), merged.2)
        | .ok responseBody =>
          (.ok ({ Status := response.Status, StatusCode := response.StatusCode,
                  Body := responseBody }, none), merged.2)

/-- `(*RestClient).Get` of client.go. -/
def RestClient.Get (net : Net) (r : RestClient) (url : String) (request : Request)
    (headers : Header) : Outcome (FetchResponse × Option FetchError) × RestClient :=
  fetch net r "GET" url request headers

/-- `(*RestClient).Post` of client.go. -/
def RestClient.Post (net : Net) (r : RestClient) (url : String) (request : Request)
    (headers : Header) : Outcome (FetchResponse × Option FetchError) × RestClient :=
  fetch net r "POST" url request headers

/-- `(*RestClient).Put` of client.go. -/
def RestClient.Put (net : Net) (r : RestClient) (url : String) (request : Request)
    (headers : Header) : Outcome (FetchResponse × Option FetchError) × RestClient :=
  fetch net r "PUT" url request headers

/-- `(*RestClient).Patch` of client.go. -/
def RestClient.Patch (net : Net) (r : RestClient) (url : String) (request : Request)
    (headers : Header) : Outcome (FetchResponse × Option FetchError) × RestClient :=
  fetch net r "PATCH" url request headers

/-- `(*RestClient).Delete` of client.go. -/
def RestClient.Delete (net : Net) (r : RestClient) (url : String) (request : Request)
    (headers : Header) : Outcome (FetchResponse × Option FetchError) × RestClient :=
  fetch net r "DELETE" url request headers

/-! ## posts_handler.go -/

/-- `postsUrl` of posts_handler.go. -/
def postsUrl : String := "https://jsonplaceholder.typicode.com/posts"

/-- The zero value of `Post` (`var post Post`). -/
def Post.zero : Post := { UserId := 0, Id := 0, Title := "", Body := "" }

/-- `GetPostHandler` of posts_handler.go. `id` is `params.ByName("id")`; `restClient` is the
package-level client, returned as the call leaves it. A panic of the fetch goes on unwinding;
a non-nil error is answered with the `server_error` envelope; otherwise the response goes to
`WriteJSONResponse` with the handler's `var post Post`. -/
def GetPostHandler (net : Net) (restClient : RestClient) (w : ResponseWriter) (r : Request)
    (id : String) :
    Outcome ResponseWriter × RestClient :=
  let url := postsUrl ++ "/" ++ id
  match restClient.Get net url r [] with
  | (.panic msg, restClient1) => (.panic msg, restClient1)
  | (.ok (_, some _), restClient1) =>
    (.ok (WriteErrorResponse w "server_error" "Server error occured"), restClient1)
  | (.ok (response, none), restClient1) =>
    (WriteJSONResponse w response (.post Post.zero), restClient1)

/-- `GetPostsHandler` of posts_handler.go; the response object is `var posts []Post`. -/
def GetPostsHandler (net : Net) (restClient : RestClient) (w : ResponseWriter) (r : Request) :
    Outcome ResponseWriter × RestClient :=
  let url := if 0 < r.RawQuery.length then postsUrl ++ "?" ++ r.RawQuery else postsUrl
  match restClient.Get net url r r.Header with
  | (.panic msg, restClient1) => (.panic msg, restClient1)
  | (.ok (_, some _), restClient1) =>
    (.ok (WriteErrorResponse w "server_error" "Server error occured"), restClient1)
  | (.ok (response, none), restClient1) =>
    (WriteJSONResponse w response (.posts none), restClient1)

/-- `CreatePostHandler` of posts_handler.go. -/
def CreatePostHandler (net : Net) (restClient : RestClient) (w : ResponseWriter) (r : Request) :
    Outcome ResponseWriter × RestClient :=
  match restClient.Post net postsUrl r r.Header with
  | (.panic msg, restClient1) => (.panic msg, restClient1)
  | (.ok (_, some _), restClient1) =>
    (.ok (WriteErrorResponse w "server_error" "Server error occured"), restClient1)
  | (.ok (response, none), restClient1) =>
    (WriteJSONResponse w response (.post Post.zero), restClient1)

/-- `UpdatePostHandler` of posts_handler.go. -/
def UpdatePostHandler (net : Net) (restClient : RestClient) (w : ResponseWriter) (r : Request)
    (id : String) :
    Outcome ResponseWriter × RestClient :=
  let url := postsUrl ++ "/" ++ id
  match restClient.Put net url r r.Header with
  | (.panic msg, restClient1) => (.panic msg, restClient1)
  | (.ok (_, some _), restClient1) =>
    (.ok (WriteErrorResponse w "server_error" "Server error occured"), restClient1)
  | (.ok (response, none), restClient1) =>
    (WriteJSONResponse w response (.post Post.zero), restClient1)

/-- `PatchPostHandler` of posts_handler.go. -/
def PatchPostHandler (net : Net) (restClient : RestClient) (w : ResponseWriter) (r : Request)
    (id : String) :
    Outcome ResponseWriter × RestClient :=
  let url := postsUrl ++ "/" ++ id
  match restClient.Patch net url r r.Header with
  | (.panic msg, restClient1) => (.panic msg, restClient1)
  | (.ok (_, some _), restClient1) =>
    (.ok (WriteErrorResponse w "server_error" "Server error occured"), restClient1)
  | (.ok (response, none), restClient1) =>
    (WriteJSONResponse w response (.post Post.zero), restClient1)

/-- `DeletePostHandler` of posts_handler.go. -/
def DeletePostHandler (net : Net) (restClient : RestClient) (w : ResponseWriter) (r : Request)
    (id : String) :
    Outcome ResponseWriter × RestClient :=
  let url := postsUrl ++ "/" ++ id
  match restClient.Delete net url r r.Header with
  | (.panic msg, restClient1) => (.panic msg, restClient1)
  | (.ok (_, some _), restClient1) =>
    (.ok (WriteErrorResponse w "server_error" "Server error occured"), restClient1)
  | (.ok (response, none), restClient1) =>
    (WriteJSONResponse w response (.post Post.zero), restClient1)

/-! ## Concrete inputs -/

/-- An upstream that cannot be reached: every request is well formed, every call of
`Client.Do` returns no response and the error `connection refused`. -/
def refusedNet : Net :=
  { NewRequestFails := fun _ _ => false
    Do := fun _ => (none, some "dial tcp: connect: connection refused") }

/-- An inbound `POST /posts` whose body reads without error. -/
def createRequest : Request :=
  { Body := .ok "\x7b\"title\":\"t\",\"body\":\"b\",\"userId\":1\x7d"
    Header := [("Content-Type", ["application/json"])]
    RawQuery := "" }
/-! ## Lemmas on headers -/

theorem Header.lookup_set (h : Header) (k : String) (v : List String) (key : String) :
    Header.lookup (Header.set h k v) key = if k = key then some v else Header.lookup h key := by
  induction h with
  | nil => simp [Header.set, Header.lookup]
  | cons p rest ih =>
    obtain ⟨k0, v0⟩ := p
    by_cases h1 : k0 = k
    · subst h1
      by_cases h2 : k0 = key <;> simp [Header.set, Header.lookup, h2]
    · by_cases h2 : k0 = key
      · subst h2
        have h3 : ¬ k = k0 := fun e => h1 e.symm
        simp [Header.set, Header.lookup, h1, h3]
      · simp [Header.set, Header.lookup, h1, h2, ih]

theorem Header.keys_set_of_mem (h : Header) (k : String) (v : List String)
    (hk : (Header.lookup h k).isSome) : Header.keys (Header.set h k v) = Header.keys h := by
  induction h with
  | nil => simp [Header.lookup] at hk
  | cons p rest ih =>
    obtain ⟨k0, v0⟩ := p
    by_cases h1 : k0 = k
    · simp [Header.set, Header.keys, h1]
    · have hk2 : (Header.lookup rest k).isSome := by simpa [Header.lookup, h1] using hk
      have := ih hk2
      simp [Header.set, Header.keys, h1] at this ⊢
      exact this

theorem Header.lookup_isSome_iff (h : Header) (k : String) :
    (Header.lookup h k).isSome ↔ k ∈ Header.keys h := by
  induction h with
  | nil => simp [Header.lookup, Header.keys]
  | cons p rest ih =>
    obtain ⟨k0, v0⟩ := p
    by_cases h1 : k0 = k
    · simp [Header.lookup, Header.keys, h1]
    · have h1b : ¬ k = k0 := fun e => h1 e.symm
      simp only [Header.lookup, h1, if_false, ih, Header.keys, List.map_cons, List.mem_cons, h1b,
        false_or]

/-- What the loop leaves under each key: the value of `src` for a visited key that `src`
has, the old value otherwise. -/
theorem mergeLoop_lookup (src : Header) (hs : List String) (dest : Header) (key : String) :
    Header.lookup (mergeLoop src hs dest) key =
      if key ∈ hs then
        (match Header.lookup src key with
          | some val => some val
          | none => Header.lookup dest key)
      else Header.lookup dest key := by
  induction hs generalizing dest with
  | nil => simp [mergeLoop]
  | cons h hs ih =>
    by_cases hkh : h = key
    · subst hkh
      cases hsrc : Header.lookup src h with
      | none =>
        simp only [mergeLoop, hsrc, ih, List.mem_cons, true_or, if_true]
        split <;> rfl
      | some val =>
        simp only [mergeLoop, hsrc, ih, Header.lookup_set, List.mem_cons, true_or, if_true]
        split <;> rfl
    · have hkh2 : ¬ key = h := fun e => hkh e.symm
      cases hsrc : Header.lookup src h with
      | none => simp only [mergeLoop, hsrc, ih, List.mem_cons, hkh2, false_or]
      | some val =>
        simp only [mergeLoop, hsrc, ih, Header.lookup_set, hkh, if_false, List.mem_cons, hkh2,
          false_or]

/-- Go visits the keys of a map in no fixed order; what the loop leaves under each key does
not depend on the order, nor on a key being visited more than once. -/
theorem mergeLoop_lookup_order (src : Header) (hs hs' : List String) (dest : Header)
    (key : String) (h : ∀ k, k ∈ hs ↔ k ∈ hs') :
    Header.lookup (mergeLoop src hs dest) key = Header.lookup (mergeLoop src hs' dest) key := by
  rw [mergeLoop_lookup, mergeLoop_lookup]
  by_cases hk : key ∈ hs
  · rw [if_pos hk, if_pos ((h key).1 hk)]
  · rw [if_neg hk, if_neg (fun hk' => hk ((h key).2 hk'))]

/-- The loop assigns only to keys it visits, so over keys of `dest` it adds no key. -/
theorem mergeLoop_keys (src : Header) (hs : List String) (dest : Header)
    (hsub : ∀ k ∈ hs, k ∈ Header.keys dest) :
    Header.keys (mergeLoop src hs dest) = Header.keys dest := by
  induction hs generalizing dest with
  | nil => simp [mergeLoop]
  | cons h hs ih =>
    have hmem : h ∈ Header.keys dest := hsub h (List.mem_cons_self _ _)
    cases hsrc : Header.lookup src h with
    | none =>
      simp only [mergeLoop, hsrc]
      exact ih dest (fun k hk => hsub k (List.mem_cons_of_mem _ hk))
    | some val =>
      have hset : Header.keys (Header.set dest h val) = Header.keys dest :=
        Header.keys_set_of_mem dest h val ((Header.lookup_isSome_iff dest h).2 hmem)
      simp only [mergeLoop, hsrc]
      rw [ih (Header.set dest h val) (fun k hk => by
        rw [hset]; exact hsub k (List.mem_cons_of_mem _ hk)), hset]

/-! ## Claims on the classifier and the header merge -/

/-- C1: `CheckForError` returns the `not_found` envelope with the single message
"Resource not found" exactly for status 404, the `bad_external_request` envelope with the
single message "Bad external request" exactly for 400..499 other than 404, and the
`server_error` envelope with the single message "Server error occured" exactly for 500..599. -/
theorem CheckForError_classification (c : Int) (status body : String) :
    (CheckForError ⟨c, status, body⟩ =
        some { Type_ := "not_found", Errors := ["Resource not found"] } ↔ c = 404) ∧
    (CheckForError ⟨c, status, body⟩ =
        some { Type_ := "bad_external_request", Errors := ["Bad external request"] } ↔
      (400 ≤ c ∧ c < 500 ∧ c ≠ 404)) ∧
    (CheckForError ⟨c, status, body⟩ =
        some { Type_ := "server_error", Errors := ["Server error occured"] } ↔
      (500 ≤ c ∧ c < 600)) := by
  unfold CheckForError
  dsimp only
  refine ⟨?_, ?_, ?_⟩ <;> split_ifs <;> simp <;> omega

/-- C2: the header set `mergeHeaders` returns has exactly the keys of the base set `B`
(the client's `DefaultHeaders` at the call); under a key of `B` it holds the override's value
when the override has that key and the base value otherwise; a key the base set lacks is
absent from the result, whether or not the override has it. -/
theorem mergeHeaders_result (r : RestClient) (O : Header) :
    Header.keys (mergeHeaders r O).1 = Header.keys r.DefaultHeaders ∧
    ∀ k, Header.lookup (mergeHeaders r O).1 k =
      match Header.lookup r.DefaultHeaders k with
      | some b => some ((Header.lookup O k).getD b)
      | none => none := by
  refine ⟨mergeLoop_keys O _ _ (fun k hk => hk), ?_⟩
  intro k
  show Header.lookup (mergeLoop O (Header.keys r.DefaultHeaders) r.DefaultHeaders) k = _
  rw [mergeLoop_lookup]
  cases hb : Header.lookup r.DefaultHeaders k with
  | none =>
    have hmem : ¬ k ∈ Header.keys r.DefaultHeaders := by
      intro hm
      have := (Header.lookup_isSome_iff _ k).2 hm
      simp [hb] at this
    rw [if_neg hmem]
  | some b =>
    have hmem : k ∈ Header.keys r.DefaultHeaders :=
      (Header.lookup_isSome_iff _ k).1 (by simp [hb])
    rw [if_pos hmem]
    cases hO : Header.lookup O k <;> simp

/-- The map `mergeHeaders` returns is the client's own map after the call. -/
theorem mergeHeaders_aliases (r : RestClient) (O : Header) :
    (mergeHeaders r O).2.DefaultHeaders = (mergeHeaders r O).1 :=
  rfl

/-- C3, the code at a failing input: on the client built by `New`, one call of `mergeHeaders`
with the override `Content-Type: text/plain` leaves `DefaultHeaders` changed, and the next call
with the empty (nil) override returns `Content-Type: text/plain`, not the construction-time
`application/json`. -/
theorem mergeHeaders_overwrites_DefaultHeaders :
    (mergeHeaders New [("Content-Type", ["text/plain"])]).2.DefaultHeaders
        = [("Content-Type", ["text/plain"])] ∧
    (mergeHeaders New [("Content-Type", ["text/plain"])]).2.DefaultHeaders
        ≠ New.DefaultHeaders ∧
    (mergeHeaders (mergeHeaders New [("Content-Type", ["text/plain"])]).2 []).1
        = [("Content-Type", ["text/plain"])] := by
  decide

/-- The status codes for which `CheckForError` returns nil: those below 400 and those from
600 on. -/
theorem CheckForError_nil_iff (c : Int) (status body : String) :
    CheckForError ⟨c, status, body⟩ = none ↔ (c < 400 ∨ 600 ≤ c) := by
  unfold CheckForError
  dsimp only
  split_ifs <;> simp <;> omega

/-- C10, the code at a failing input: for status code 600, which is not below 400,
`CheckForError` returns nil. -/
theorem CheckForError_600_is_nil :
    CheckForError ⟨600, "600 status", ""⟩ = none ∧ ¬ ((600 : Int) < 400) := by
  decide


/-! ## The decoder reads back what the encoder writes -/

theorem hex4_hexDigit :
    ∀ n < 64, hex4 '0' '0' (hexDigit (n / 16)) (hexDigit (n % 16)) = some n := by
  decide!

theorem Char.ofNat_toNat_self (c : Char) : Char.ofNat c.toNat = c := by
  have h : c.toNat.isValidChar := c.valid
  simp only [Char.ofNat, h, dite_true]
  rfl

theorem Char.eq_of_toNat_eq (c d : Char) (h : c.toNat = d.toNat) : c = d := by
  rw [← Char.ofNat_toNat_self c, ← Char.ofNat_toNat_self d, h]

/-- Reading a string literal whose body is the encoding of `s` gives back `s`. -/
theorem parseStringBody_encode (s : List Char) :
    ∀ (fuel : Nat) (rest acc : List Char),
      (s.flatMap encodeChar).length + 1 ≤ fuel →
      parseStringBody fuel (s.flatMap encodeChar ++ '"' :: rest) acc =
        some (String.mk (acc.reverse ++ s), rest) := by
  induction s with
  | nil =>
    intro fuel rest acc hf
    obtain ⟨f, rfl⟩ : ∃ f, fuel = f + 1 := ⟨fuel - 1, by simp at hf; omega⟩
    simp [parseStringBody]
  | cons c s ih =>
    intro fuel rest acc hf
    obtain ⟨f, rfl⟩ : ∃ f, fuel = f + 1 := ⟨fuel - 1, by omega⟩
    simp only [List.flatMap_cons, List.length_append] at hf
    simp only [List.flatMap_cons, List.append_assoc]
    have hres : String.mk ((c :: acc).reverse ++ s) = String.mk (acc.reverse ++ c :: s) := by
      simp
    by_cases h1 : c = '"'
    · subst h1
      have he : encodeChar '"' = ['\\', '"'] := by decide
      rw [he] at hf ⊢
      simp only [List.length_cons, List.length_nil] at hf
      rw [← hres, ← ih f rest ('"' :: acc) (by omega)]
      simp [parseStringBody]
    by_cases h2 : c = '\\'
    · subst h2
      have he : encodeChar '\\' = ['\\', '\\'] := by decide
      rw [he] at hf ⊢
      simp only [List.length_cons, List.length_nil] at hf
      rw [← hres, ← ih f rest ('\\' :: acc) (by omega)]
      simp [parseStringBody]
    by_cases h3 : c = '\n'
    · subst h3
      have he : encodeChar '\n' = ['\\', 'n'] := by decide
      rw [he] at hf ⊢
      simp only [List.length_cons, List.length_nil] at hf
      rw [← hres, ← ih f rest ('\n' :: acc) (by omega)]
      simp [parseStringBody]
    by_cases h4 : c = '\r'
    · subst h4
      have he : encodeChar '\r' = ['\\', 'r'] := by decide
      rw [he] at hf ⊢
      simp only [List.length_cons, List.length_nil] at hf
      rw [← hres, ← ih f rest ('\r' :: acc) (by omega)]
      simp [parseStringBody]
    by_cases h5 : c = '\t'
    · subst h5
      have he : encodeChar '\t' = ['\\', 't'] := by decide
      rw [he] at hf ⊢
      simp only [List.length_cons, List.length_nil] at hf
      rw [← hres, ← ih f rest ('\t' :: acc) (by omega)]
      simp [parseStringBody]
    by_cases h6 : c.toNat < 32 ∨ c = '<' ∨ c = '>' ∨ c = '&'
    · have he : encodeChar c =
          ['\\', 'u', '0', '0', hexDigit (c.toNat / 16), hexDigit (c.toNat % 16)] := by
        simp only [encodeChar, h1, h2, h3, h4, h5, h6, if_false, if_true]
      have hlt : c.toNat < 64 := by
        rcases h6 with h | h | h | h
        · omega
        · subst h; decide
        · subst h; decide
        · subst h; decide
      rw [he] at hf ⊢
      simp only [List.length_cons, List.length_nil] at hf
      rw [← hres, ← ih f rest (c :: acc) (by omega)]
      have hhex := hex4_hexDigit c.toNat hlt
      have hns : ¬ (0xD800 ≤ c.toNat ∧ c.toNat < 0xE000) := by omega
      simp [parseStringBody, hhex, hns, Char.ofNat_toNat_self]
    by_cases h7 : c.toNat = 0x2028
    · have hc : c = Char.ofNat 0x2028 := Char.eq_of_toNat_eq _ _ (by rw [h7]; decide)
      subst hc
      have he : encodeChar (Char.ofNat 0x2028) = ['\\', 'u', '2', '0', '2', '8'] := by decide
      rw [he] at hf ⊢
      simp only [List.length_cons, List.length_nil] at hf
      rw [← hres, ← ih f rest (Char.ofNat 0x2028 :: acc) (by omega)]
      have hhex : hex4 '2' '0' '2' '8' = some 0x2028 := by decide
      simp [parseStringBody, hhex]
    by_cases h8 : c.toNat = 0x2029
    · have hc : c = Char.ofNat 0x2029 := Char.eq_of_toNat_eq _ _ (by rw [h8]; decide)
      subst hc
      have he : encodeChar (Char.ofNat 0x2029) = ['\\', 'u', '2', '0', '2', '9'] := by decide
      rw [he] at hf ⊢
      simp only [List.length_cons, List.length_nil] at hf
      rw [← hres, ← ih f rest (Char.ofNat 0x2029 :: acc) (by omega)]
      have hhex : hex4 '2' '0' '2' '9' = some 0x2029 := by decide
      simp [parseStringBody, hhex]
    · have he : encodeChar c = [c] := by
        simp only [encodeChar, h1, h2, h3, h4, h5, h6, h7, h8, if_false]
      have h32 : ¬ c.toNat < 32 := fun h => h6 (Or.inl h)
      rw [he] at hf ⊢
      simp only [List.length_cons, List.length_nil] at hf
      rw [← hres, ← ih f rest (c :: acc) (by omega)]
      simp [parseStringBody, h1, h2, h32]

/-- Reading a string literal from its opening quote. -/
theorem parseStringBody_literal (s : List Char) (rest : List Char) :
    parseStringBody ((s.flatMap encodeChar ++ '"' :: rest).length + 1)
        (s.flatMap encodeChar ++ '"' :: rest) [] = some (String.mk s, rest) := by
  have h := parseStringBody_encode s ((s.flatMap encodeChar ++ '"' :: rest).length + 1) rest []
    (by simp only [List.length_append, List.length_cons]; omega)
  simpa using h

theorem encodeString_append (s : String) (rest : List Char) :
    encodeString s ++ rest = '"' :: (s.toList.flatMap encodeChar ++ '"' :: rest) := by
  simp [encodeString]

/-- A string value is read back from its encoding. -/
theorem parseValue_encodeString (n : Nat) (s : String) (rest : List Char) :
    parseValue (n + 1) (encodeString s ++ rest) = some (.str s, rest) := by
  have h := parseStringBody_literal s.toList rest
  rw [encodeString_append]
  simp only [parseValue]
  rw [h]
  simp

theorem skipWS_encodeString (s : String) (rest : List Char) :
    skipWS (encodeString s ++ rest) = encodeString s ++ rest := by
  simp [encodeString, skipWS, isWS]

theorem startsWith_encodeString (c : Char) (hc : c ≠ '"') (s : String) (rest : List Char) :
    startsWith c (encodeString s ++ rest) = false := by
  simp only [encodeString, List.cons_append, startsWith, decide_eq_false_iff_not]
  exact fun h => hc h.symm

/-- An object that is not empty: its members are read. -/
theorem parseValue_object (f : Nat) (r : List Char) (h : startsWith '}' (skipWS r) = false) :
    parseValue (f + 1) ('{' :: r) = parseMembers f (skipWS r) [] := by
  simp [parseValue, h]

/-- An array that is not empty: its elements are read. -/
theorem parseValue_array (f : Nat) (r : List Char) (h : startsWith ']' (skipWS r) = false) :
    parseValue (f + 1) ('[' :: r) = parseElements f (skipWS r) [] := by
  simp [parseValue, h]

/-- The last element of an array. -/
theorem parseElements_last (f : Nat) (cs : List Char) (acc : List JSON) (v : JSON)
    (rest : List Char) (hv : parseValue f cs = some (v, ']' :: rest)) :
    parseElements (f + 1) cs acc = some (.arr (v :: acc).reverse, rest) := by
  simp [parseElements, hv, skipWS, isWS, startsWith]

/-- A member of an object that a comma follows. -/
theorem parseMembers_next (f : Nat) (k : String) (vs : List Char) (acc : List (String × JSON))
    (v : JSON) (rest : List Char) (hvs : skipWS vs = vs)
    (hv : parseValue f vs = some (v, ',' :: rest)) :
    parseMembers (f + 1) (encodeString k ++ ':' :: vs) acc =
      parseMembers f (skipWS rest) (mapInsert k v acc) := by
  have h := parseStringBody_literal k.toList (':' :: vs)
  rw [encodeString_append]
  simp only [parseMembers]
  rw [h]
  simp [skipWS, isWS, startsWith, hvs, hv]

/-- The last member of an object. -/
theorem parseMembers_last (f : Nat) (k : String) (vs : List Char) (acc : List (String × JSON))
    (v : JSON) (rest : List Char) (hvs : skipWS vs = vs)
    (hv : parseValue f vs = some (v, '}' :: rest)) :
    parseMembers (f + 1) (encodeString k ++ ':' :: vs) acc =
      some (.obj (mapInsert k v acc), rest) := by
  have h := parseStringBody_literal k.toList (':' :: vs)
  rw [encodeString_append]
  simp only [parseMembers]
  rw [h]
  simp [skipWS, isWS, startsWith, hvs, hv]

/-- The text of the envelope, character by character. -/
theorem marshalErrorResponse_toList (errorType errorMessage : String) :
    (marshalErrorResponse { Type_ := errorType, Errors := [errorMessage] } ++ "\n").toList =
      '{' :: (encodeString "type" ++ ':' :: (encodeString errorType ++ ',' ::
        (encodeString "errors" ++ ':' :: '[' :: (encodeString errorMessage ++
          [']', '}', '\n'])))) := by
  simp [marshalErrorResponse, encodeStrings]

/-- An object of a string member and a member holding a one-string array is read back from
its text, whatever fuel is left beyond six levels. -/
theorem parseValue_envelope (n : Nat) (k1 k2 errorType errorMessage : String) :
    parseValue (n + 1 + 1 + 1 + 1 + 1 + 1)
        ('{' :: (encodeString k1 ++ ':' :: (encodeString errorType ++ ',' ::
          (encodeString k2 ++ ':' :: '[' :: (encodeString errorMessage ++
            [']', '}', '\n']))))) =
      some (.obj (mapInsert k2 (.arr [.str errorMessage]) (mapInsert k1 (.str errorType) [])),
        ['\n']) := by
  have harr : parseValue (n + 1 + 1 + 1) ('[' :: (encodeString errorMessage ++ [']', '}', '\n']))
      = some (.arr [.str errorMessage], ['}', '\n']) := by
    rw [parseValue_array _ _ (by
      rw [skipWS_encodeString]; exact startsWith_encodeString _ (by decide) _ _),
      skipWS_encodeString,
      parseElements_last _ _ _ _ _ (parseValue_encodeString _ _ _)]
    rfl
  rw [parseValue_object _ _ (by
      rw [skipWS_encodeString]; exact startsWith_encodeString _ (by decide) _ _),
    skipWS_encodeString,
    parseMembers_next _ _ _ _ _ _ (skipWS_encodeString _ _) (parseValue_encodeString _ _ _),
    skipWS_encodeString,
    parseMembers_last _ _ _ _ _ _ (by simp [skipWS, isWS]) harr]

theorem fuel_six (k : Nat) (h : 6 ≤ k) : ∃ n, k = n + 1 + 1 + 1 + 1 + 1 + 1 :=
  ⟨k - 6, by omega⟩

/-- The body `WriteErrorResponse` writes decodes to the envelope: an object with the two keys
`errors`, the one-element array of the message, and `type`, the error type. -/
theorem unmarshalGeneric_marshalErrorResponse (errorType errorMessage : String) :
    unmarshalGeneric
        (marshalErrorResponse { Type_ := errorType, Errors := [errorMessage] } ++ "\n") =
      some (.obj [("errors", .arr [.str errorMessage]), ("type", .str errorType)]) := by
  have hl := marshalErrorResponse_toList errorType errorMessage
  unfold unmarshalGeneric
  have hlen : 6 ≤ 2 * (marshalErrorResponse { Type_ := errorType, Errors := [errorMessage] }
      ++ "\n").length + 2 := by
    rw [String.length, ← String.toList, hl]
    simp only [List.length_cons, List.length_append]
    omega
  obtain ⟨n, hn⟩ := fuel_six _ hlen
  rw [hn, hl]
  have hskip : ∀ r : List Char, skipWS ('{' :: r) = '{' :: r := by
    intro r
    simp [skipWS, isWS]
  have hmap : ∀ v w : JSON,
      mapInsert "errors" v (mapInsert "type" w []) = [("errors", v), ("type", w)] := by
    intro v w
    simp only [mapInsert]
    rw [if_neg (by decide), if_pos (by decide)]
  rw [hskip, parseValue_envelope, hmap]
  simp [skipWS, isWS]

/-! ## Claims on the response writer -/

/-- On a fresh writer `WriteErrorResponse` leaves status 500, the JSON content type among the
headers sent, and the text of the envelope with a newline as body. -/
theorem WriteErrorResponse_fresh (errorType errorMessage : String) :
    WriteErrorResponse ResponseWriter.fresh errorType errorMessage =
      { header := [("Content-Type", ["application/json"])],
        wroteHeader := true,
        status := 500,
        sentHeader := [("Content-Type", ["application/json"])],
        body := marshalErrorResponse { Type_ := errorType, Errors := [errorMessage] } ++ "\n" } :=
  rfl

/-- The text of an envelope with one message. -/
theorem marshalErrorResponse_text (errorType errorMessage : String) :
    marshalErrorResponse { Type_ := errorType, Errors := [errorMessage] } =
      "\x7b\"type\":" ++ String.mk (encodeString errorType) ++ ",\"errors\":[" ++
        String.mk (encodeString errorMessage) ++ "]\x7d" := by
  apply String.ext
  simp [marshalErrorResponse, encodeStrings, encodeString, encodeChar]

/-- When the classifier returns an envelope with one message, `WriteJSONResponse` answers on a
fresh writer with status 500 and that envelope, and reads nothing else of the response. -/
theorem WriteJSONResponse_of_error (response : FetchResponse) (responseObject : Any)
    (t m : String) (h : CheckForError response = some { Type_ := t, Errors := [m] }) :
    WriteJSONResponse ResponseWriter.fresh response responseObject =
      .ok { header := [("Content-Type", ["application/json"])],
            wroteHeader := true,
            status := 500,
            sentHeader := [("Content-Type", ["application/json"])],
            body := marshalErrorResponse { Type_ := t, Errors := [m] } ++ "\n" } := by
  simp only [WriteJSONResponse, h, WriteErrorResponse_fresh]

/-- C4: for every upstream status `c` with `400 ≤ c < 600`, whatever the upstream status text
and body and whatever response object the handler passes, `WriteJSONResponse` on a fresh writer
sends `Content-Type: application/json` and status 500, and its body is the JSON text (ended by
the newline of `Encoder.Encode`) of the envelope whose type `t` and single message `m` are the
ones `CheckForError` assigns to `c`; that text decodes to the object with `type` = `t` and
`errors` = `[m]`, and for `c = 404` it is
`{"type":"not_found","errors":["Resource not found"]}`. -/
theorem WriteJSONResponse_upstream_error (c : Int) (status body : String)
    (responseObject : Any) (h400 : 400 ≤ c) (h600 : c < 600) :
    ∃ t m : String,
      CheckForError ⟨c, status, body⟩ = some { Type_ := t, Errors := [m] } ∧
      WriteJSONResponse ResponseWriter.fresh ⟨c, status, body⟩ responseObject =
        .ok { header := [("Content-Type", ["application/json"])],
              wroteHeader := true,
              status := 500,
              sentHeader := [("Content-Type", ["application/json"])],
              body := marshalErrorResponse { Type_ := t, Errors := [m] } ++ "\n" } ∧
      unmarshalGeneric (marshalErrorResponse { Type_ := t, Errors := [m] } ++ "\n") =
        some (.obj [("errors", .arr [.str m]), ("type", .str t)]) ∧
      (c = 404 → marshalErrorResponse { Type_ := t, Errors := [m] } ++ "\n" =
        "\x7b\"type\":\"not_found\",\"errors\":[\"Resource not found\"]\x7d\n") := by
  have hcases : c = 404 ∨ (c ≠ 404 ∧ c < 500) ∨ 500 ≤ c := by omega
  rcases hcases with h | ⟨h1, h2⟩ | h
  · have hc : CheckForError ⟨c, status, body⟩ =
        some { Type_ := "not_found", Errors := ["Resource not found"] } := by
      subst h
      simp [CheckForError]
    exact ⟨"not_found", "Resource not found", hc, WriteJSONResponse_of_error _ _ _ _ hc,
      unmarshalGeneric_marshalErrorResponse _ _, fun _ => by decide⟩
  · have hc : CheckForError ⟨c, status, body⟩ =
        some { Type_ := "bad_external_request", Errors := ["Bad external request"] } := by
      simp only [CheckForError]
      rw [if_neg (by omega), if_neg h1, if_pos h2]
    exact ⟨"bad_external_request", "Bad external request", hc,
      WriteJSONResponse_of_error _ _ _ _ hc, unmarshalGeneric_marshalErrorResponse _ _,
      fun h404 => absurd h404 h1⟩
  · have hc : CheckForError ⟨c, status, body⟩ =
        some { Type_ := "server_error", Errors := ["Server error occured"] } := by
      simp only [CheckForError]
      rw [if_neg (by omega), if_neg (by omega), if_neg (by omega), if_pos h600]
    exact ⟨"server_error", "Server error occured", hc,
      WriteJSONResponse_of_error _ _ _ _ hc, unmarshalGeneric_marshalErrorResponse _ _,
      fun h404 => by omega⟩

/-- C4 at upstream status 404 with a body of its own and the single-post response object. -/
theorem WriteJSONResponse_upstream_error_witness :
    ((400 : Int) ≤ 404 ∧ (404 : Int) < 600) ∧
    ∃ t m : String,
      CheckForError ⟨404, "404 Not Found", "\x7b\x7d"⟩ = some { Type_ := t, Errors := [m] } ∧
      WriteJSONResponse ResponseWriter.fresh ⟨404, "404 Not Found", "\x7b\x7d"⟩
          (.post Post.zero) =
        .ok { header := [("Content-Type", ["application/json"])],
              wroteHeader := true,
              status := 500,
              sentHeader := [("Content-Type", ["application/json"])],
              body := marshalErrorResponse { Type_ := t, Errors := [m] } ++ "\n" } ∧
      unmarshalGeneric (marshalErrorResponse { Type_ := t, Errors := [m] } ++ "\n") =
        some (.obj [("errors", .arr [.str m]), ("type", .str t)]) ∧
      ((404 : Int) = 404 → marshalErrorResponse { Type_ := t, Errors := [m] } ++ "\n" =
        "\x7b\"type\":\"not_found\",\"errors\":[\"Resource not found\"]\x7d\n") :=
  ⟨by decide, WriteJSONResponse_upstream_error 404 "404 Not Found" "\x7b\x7d" (.post Post.zero)
    (by decide) (by decide)⟩

/-- C5: for every `errorType` and `errorMessage`, `WriteErrorResponse` on a fresh writer sets
`Content-Type: application/json` before the status line is written (it is among the headers
sent), writes status 500 whatever the `errorType`, and writes as body the JSON text, ended by
the newline of `Encoder.Encode`, of the envelope built by `newErrorResponse`: type `errorType`,
errors the one-element list `[errorMessage]`. The text is
`{"type":<errorType>,"errors":[<errorMessage>]}` and decodes to exactly that envelope. -/
theorem WriteErrorResponse_envelope (errorType errorMessage : String) :
    newErrorResponse errorType errorMessage = { Type_ := errorType, Errors := [errorMessage] } ∧
    WriteErrorResponse ResponseWriter.fresh errorType errorMessage =
      { header := [("Content-Type", ["application/json"])],
        wroteHeader := true,
        status := 500,
        sentHeader := [("Content-Type", ["application/json"])],
        body := marshalErrorResponse (newErrorResponse errorType errorMessage) ++ "\n" } ∧
    ((ResponseWriter.fresh.SetHeader "Content-Type" "application/json").wroteHeader = false) ∧
    marshalErrorResponse (newErrorResponse errorType errorMessage) =
      "\x7b\"type\":" ++ String.mk (encodeString errorType) ++ ",\"errors\":[" ++
        String.mk (encodeString errorMessage) ++ "]\x7d" ∧
    unmarshalGeneric (marshalErrorResponse (newErrorResponse errorType errorMessage) ++ "\n") =
      some (.obj [("errors", .arr [.str errorMessage]), ("type", .str errorType)]) :=
  ⟨rfl, WriteErrorResponse_fresh errorType errorMessage, rfl,
    marshalErrorResponse_text errorType errorMessage,
    unmarshalGeneric_marshalErrorResponse errorType errorMessage⟩

/-! ## The response object does not guide the decoding -/

/-- The part of C8 that holds: a body that is no JSON text at all is answered, for every
status below 400, with status 500 and a `server_error` envelope (its message is
"Unmarshaling JSON failed"). -/
theorem WriteJSONResponse_of_invalid_json (c : Int) (status body : String)
    (responseObject : Any) (hc : c < 400) (hbody : unmarshalGeneric body = none) :
    WriteJSONResponse ResponseWriter.fresh ⟨c, status, body⟩ responseObject =
      .ok { header := [("Content-Type", ["application/json"])],
            wroteHeader := true,
            status := 500,
            sentHeader := [("Content-Type", ["application/json"])],
            body := "\x7b\"type\":\"server_error\",\"errors\":[\"Unmarshaling JSON failed\"]\x7d\n" } := by
  have h : CheckForError ⟨c, status, body⟩ = none := by
    simp only [CheckForError]
    rw [if_pos hc]
  simp only [WriteJSONResponse, h, unmarshalIntoInterface, hbody, WriteErrorResponse_fresh]
  decide

/-- Every JSON text passes, whatever response object the handler supplied: the outcome of
`WriteJSONResponse` is the same for the single-post and the sequence-of-posts objects. -/
theorem WriteJSONResponse_ignores_responseObject (writer : ResponseWriter)
    (response : FetchResponse) (a b : Any) :
    WriteJSONResponse writer response a = WriteJSONResponse writer response b :=
  rfl

/-- C7, the code at a failing input: upstream status 200 with an array of one post that
carries the unknown field `extra`, written with the sequence-of-posts response object. The
outbound object has five fields: `extra` is still there. -/
theorem WriteJSONResponse_posts_keeps_unknown_fields :
    WriteJSONResponse ResponseWriter.fresh
        ⟨200, "200 OK",
          "[\x7b\"userId\":1,\"id\":2,\"title\":\"t\",\"body\":\"b\",\"extra\":\"x\"\x7d]"⟩
        (.posts none) =
      .ok { header := [("Content-Type", ["application/json"])],
            wroteHeader := true,
            status := 200,
            sentHeader := [("Content-Type", ["application/json"])],
            body := "[\x7b\"body\":\"b\",\"extra\":\"x\",\"id\":2,\"title\":\"t\",\"userId\":1\x7d]\n" } := by
  decide!

/-- C8, the code at two failing inputs: upstream status 200 with a JSON object where the
sequence of posts is expected, and with a JSON string where a post object is expected. Both
are answered with status 200 and the upstream body re-encoded, not with a 500 envelope. -/
theorem WriteJSONResponse_relays_other_shapes :
    WriteJSONResponse ResponseWriter.fresh ⟨200, "200 OK", "\x7b\"total\":1\x7d"⟩ (.posts none) =
      .ok { header := [("Content-Type", ["application/json"])],
            wroteHeader := true,
            status := 200,
            sentHeader := [("Content-Type", ["application/json"])],
            body := "\x7b\"total\":1\x7d\n" } ∧
    WriteJSONResponse ResponseWriter.fresh ⟨200, "200 OK", "\"oops\""⟩ (.post Post.zero) =
      .ok { header := [("Content-Type", ["application/json"])],
            wroteHeader := true,
            status := 200,
            sentHeader := [("Content-Type", ["application/json"])],
            body := "\"oops\"\n" } := by
  decide!

/-- C9, the code at a failing input: upstream status 200 with a post whose `id` is
9007199254740993 (2^53 + 1, a Go `int`), written with the single-post response object. The
outbound body has `id` 9007199254740992 and its keys in alphabetical order; the post
re-encoded as a `Post` would be the upstream text itself. -/
theorem WriteJSONResponse_post_changes_id :
    WriteJSONResponse ResponseWriter.fresh
        ⟨200, "200 OK",
          "\x7b\"userId\":1,\"id\":9007199254740993,\"title\":\"t\",\"body\":\"b\"\x7d"⟩
        (.post Post.zero) =
      .ok { header := [("Content-Type", ["application/json"])],
            wroteHeader := true,
            status := 200,
            sentHeader := [("Content-Type", ["application/json"])],
            body := "\x7b\"body\":\"b\",\"id\":9007199254740992,\"title\":\"t\",\"userId\":1\x7d\n" } ∧
    marshalAny (.post { UserId := 1, Id := 9007199254740993, Title := "t", Body := "b" }) =
      "\x7b\"userId\":1,\"id\":9007199254740993,\"title\":\"t\",\"body\":\"b\"\x7d" := by
  decide!

/-- The example of C9 itself: the four values are kept, the keys come out in alphabetical
order, not in the order of the fields of `Post`. -/
theorem WriteJSONResponse_post_example :
    WriteJSONResponse ResponseWriter.fresh
        ⟨200, "200 OK", "\x7b\"userId\":1,\"id\":1,\"title\":\"t\",\"body\":\"b\"\x7d"⟩
        (.post Post.zero) =
      .ok { header := [("Content-Type", ["application/json"])],
            wroteHeader := true,
            status := 200,
            sentHeader := [("Content-Type", ["application/json"])],
            body := "\x7b\"body\":\"b\",\"id\":1,\"title\":\"t\",\"userId\":1\x7d\n" } := by
  decide!

/-! ## Claims on the fetch -/

/-- Whenever the inbound body reads and `Client.Do` returns a nil response, `fetch` panics:
for every method, URL, header set and client, and whether or not the request could be built. -/
theorem fetch_panics_of_nil_response (net : Net) (r : RestClient) (method url : String)
    (request : Request) (headers : Header) (body : String)
    (hbody : request.Body = .ok body)
    (hdo : ∀ out, (net.Do out).1 = none) :
    (fetch net r method url request headers).1 =
      .panic "invalid memory address or nil pointer dereference" := by
  unfold fetch CopyRequestBody
  rw [hbody]
  dsimp only
  split_ifs with hnew
  · rfl
  · split
    · rfl
    · next heq => have h := congrArg Prod.fst heq; rw [hdo] at h; simp at h
    · next heq => have h := congrArg Prod.fst heq; rw [hdo] at h; simp at h

/-- C6, the code at a failing input: `POST /posts` with a readable body while the upstream
refuses the connection. `fetch` panics instead of returning an error, and so does
`CreatePostHandler`: no 500 response with the `server_error` envelope is written. -/
theorem CreatePostHandler_panics_on_transport_failure :
    (fetch refusedNet New "POST" postsUrl createRequest createRequest.Header).1 =
      .panic "invalid memory address or nil pointer dereference" ∧
    (CreatePostHandler refusedNet New ResponseWriter.fresh createRequest).1 =
      .panic "invalid memory address or nil pointer dereference" := by
  decide

/-- The error branch of the handler, on the path where `fetch` does return an error (the
inbound body cannot be read): status 500 and the `server_error` envelope with the message
"Server error occured". -/
theorem CreatePostHandler_on_unreadable_body (net : Net) (restClient : RestClient)
    (r : Request) (err : String) (hbody : r.Body = .error err) :
    (CreatePostHandler net restClient ResponseWriter.fresh r).1 =
      .ok { header := [("Content-Type", ["application/json"])],
            wroteHeader := true,
            status := 500,
            sentHeader := [("Content-Type", ["application/json"])],
            body := "\x7b\"type\":\"server_error\",\"errors\":[\"Server error occured\"]\x7d\n" } := by
  simp only [CreatePostHandler, RestClient.Post, fetch, CopyRequestBody, hbody,
    WriteErrorResponse_fresh]
  decide

end Restful
